import Mathlib

/-!
Shallow embedding of the `pkcegen` module (`src/__init__.py`): a PKCE
(Proof Key for Code Exchange) parameter generator.  Bytes are modelled as
`Nat` values below 256, byte strings as `List Nat`, Python `str` as Lean
`String`, and a raised `ValueError` as the `Except.error` branch carrying
the message.  The calls to `os.urandom(n)` are modelled by passing the
drawn bytes explicitly as a `List Nat` argument (with `length = n` as a
side condition where it matters); CPython's `os.urandom` raises
`ValueError` for a negative argument, which the model reproduces.
-/

set_option maxRecDepth 100000

namespace Pkcegen

/-- Equality of `Except` results is decidable componentwise (needed to
evaluate the embedded functions on concrete inputs). -/
instance {ε α : Type} [DecidableEq ε] [DecidableEq α] : DecidableEq (Except ε α) := fun a b =>
  match a, b with
  | Except.ok x, Except.ok y =>
      if h : x = y then isTrue (by rw [h])
      else isFalse (fun he => h (Except.ok.inj he))
  | Except.error x, Except.error y =>
      if h : x = y then isTrue (by rw [h])
      else isFalse (fun he => h (Except.error.inj he))
  | Except.ok _, Except.error _ => isFalse (fun he => Except.noConfusion he)
  | Except.error _, Except.ok _ => isFalse (fun he => Except.noConfusion he)

/-! ## URL-safe base64 (`base64.urlsafe_b64encode` followed by `.rstrip(b'=')`) -/

/-- The URL-safe base64 alphabet: `A-Z a-z 0-9 - _` (RFC 4648 §5), as used by
`base64.urlsafe_b64encode`. -/
def b64Alphabet : List Char :=
  "ABCDEFGHIJKLMNOPQRSTUVWXYZabcdefghijklmnopqrstuvwxyz0123456789-_".toList

/-- The alphabet character for a 6-bit value (indices are always `< 64` at
the call sites; the `% 64` and the default make the function total). -/
def b64Char (n : Nat) : Char := b64Alphabet.getD (n % 64) 'A'

/-- Base64 encoding over 3-byte groups, with `=` padding for a final partial
group, exactly as `base64.urlsafe_b64encode` produces it (URL-safe alphabet). -/
def b64EncodeGroups : List Nat → List Char
  | [] => []
  | [b0] => [b64Char (b0 / 4), b64Char (b0 % 4 * 16), '=', '=']
  | [b0, b1] => [b64Char (b0 / 4), b64Char (b0 % 4 * 16 + b1 / 16),
      b64Char (b1 % 16 * 4), '=']
  | b0 :: b1 :: b2 :: rest =>
      b64Char (b0 / 4) :: b64Char (b0 % 4 * 16 + b1 / 16) ::
      b64Char (b1 % 16 * 4 + b2 / 64) :: b64Char (b2 % 64) :: b64EncodeGroups rest

/-- `.rstrip(b'=')` / `.rstrip('=')`: drop the trailing `=` characters. -/
def rstripEq (cs : List Char) : List Char := (cs.reverse.dropWhile (· == '=')).reverse

/-- `base64.urlsafe_b64encode(bs).rstrip(b'=').decode('ascii')`. -/
def b64NoPad (bs : List Nat) : String := String.mk (rstripEq (b64EncodeGroups bs))

/-! ## SHA-256 (`hashlib.sha256(...).digest()`), FIPS 180-4 over byte lists -/

/-- `2^32`, the word modulus of SHA-256. -/
def w32 : Nat := 4294967296

/-- Right rotation of a 32-bit word. -/
def rotr (n x : Nat) : Nat := ((x >>> n) ||| (x <<< (32 - n))) % w32

/-- FIPS 180-4 `Ch`: `(x ∧ y) ⊕ (¬x ∧ z)` on 32-bit words. -/
def chF (x y z : Nat) : Nat := (x &&& y) ^^^ ((x ^^^ 4294967295) &&& z)

/-- FIPS 180-4 `Maj`. -/
def majF (x y z : Nat) : Nat := (x &&& y) ^^^ (x &&& z) ^^^ (y &&& z)

/-- FIPS 180-4 `Σ₀`. -/
def bsig0 (x : Nat) : Nat := rotr 2 x ^^^ rotr 13 x ^^^ rotr 22 x

/-- FIPS 180-4 `Σ₁`. -/
def bsig1 (x : Nat) : Nat := rotr 6 x ^^^ rotr 11 x ^^^ rotr 25 x

/-- FIPS 180-4 `σ₀`. -/
def ssig0 (x : Nat) : Nat := rotr 7 x ^^^ rotr 18 x ^^^ (x >>> 3)

/-- FIPS 180-4 `σ₁`. -/
def ssig1 (x : Nat) : Nat := rotr 17 x ^^^ rotr 19 x ^^^ (x >>> 10)

/-- The 64 SHA-256 round constants of FIPS 180-4 (the fractional parts of
the cube roots of the first 64 primes), written in decimal. -/
def shaK : List Nat :=
  [1116352408, 1899447441, 3049323471, 3921009573, 961987163,
   1508970993, 2453635748, 2870763221, 3624381080, 310598401,
   607225278, 1426881987, 1925078388, 2162078206, 2614888103,
   3248222580, 3835390401, 4022224774, 264347078, 604807628,
   770255983, 1249150122, 1555081692, 1996064986, 2554220882,
   2821834349, 2952996808, 3210313671, 3336571891, 3584528711,
   113926993, 338241895, 666307205, 773529912, 1294757372,
   1396182291, 1695183700, 1986661051, 2177026350, 2456956037,
   2730485921, 2820302411, 3259730800, 3345764771, 3516065817,
   3600352804, 4094571909, 275423344, 430227734, 506948616,
   659060556, 883997877, 958139571, 1322822218, 1537002063,
   1747873779, 1955562222, 2024104815, 2227730452, 2361852424,
   2428436474, 2756734187, 3204031479, 3329325298]

/-- The eight 32-bit working variables of the SHA-256 compression function. -/
structure ShaState where
  a : Nat
  b : Nat
  c : Nat
  d : Nat
  e : Nat
  f : Nat
  g : Nat
  h : Nat
  deriving DecidableEq

/-- The SHA-256 initial hash value of FIPS 180-4, in decimal. -/
def shaInit : ShaState :=
  ⟨1779033703, 3144134277, 1013904242, 2773480762,
   1359893119, 2600822924, 528734635, 1541459225⟩

/-- Big-endian 8-byte encoding of the bit length, for the padding block. -/
def lenBytes64 (n : Nat) : List Nat :=
  [n >>> 56 % 256, n >>> 48 % 256, n >>> 40 % 256, n >>> 32 % 256,
   n >>> 24 % 256, n >>> 16 % 256, n >>> 8 % 256, n % 256]

/-- SHA-256 padding: append `0x80`, then zeros up to 56 mod 64, then the
bit length as 8 big-endian bytes, so the total is a multiple of 64. -/
def shaPad (bs : List Nat) : List Nat :=
  bs ++ 0x80 :: (List.replicate ((120 - (bs.length + 1) % 64) % 64) 0 ++
    lenBytes64 (8 * bs.length))

/-- Block splitting with explicit fuel (structural recursion, so the
kernel can evaluate it; the fuel is the list length, which each step
shrinks by 64, so it never runs out). -/
def toBlocksF : Nat → List Nat → List (List Nat)
  | _, [] => []
  | 0, _ :: _ => []
  | fuel + 1, b :: bs => List.take 64 (b :: bs) :: toBlocksF fuel (List.drop 63 bs)

/-- Split a byte list into 64-byte blocks (the input length is always a
multiple of 64 after padding). -/
def toBlocks (bs : List Nat) : List (List Nat) := toBlocksF bs.length bs

/-- Big-endian 32-bit words of a 64-byte block. -/
def bytesToWords : List Nat → List Nat
  | b0 :: b1 :: b2 :: b3 :: rest =>
      (b0 <<< 24 ||| b1 <<< 16 ||| b2 <<< 8 ||| b3) :: bytesToWords rest
  | _ => []

/-- One step of the message-schedule extension: append
`σ₁(w[t-2]) + w[t-7] + σ₀(w[t-15]) + w[t-16] mod 2^32`. -/
def extendStep (w : List Nat) : List Nat :=
  w ++ [(ssig1 (w.getD (w.length - 2) 0) + w.getD (w.length - 7) 0 +
         ssig0 (w.getD (w.length - 15) 0) + w.getD (w.length - 16) 0) % w32]

/-- The 64-entry message schedule of a block: its 16 words extended 48 times. -/
def shaSchedule (block : List Nat) : List Nat := extendStep^[48] (bytesToWords block)

/-- One SHA-256 round on the working variables. -/
def shaRound (st : ShaState) (k w : Nat) : ShaState :=
  let t1 := (st.h + bsig1 st.e + chF st.e st.f st.g + k + w) % w32
  let t2 := (bsig0 st.a + majF st.a st.b st.c) % w32
  ⟨(t1 + t2) % w32, st.a, st.b, st.c, (st.d + t1) % w32, st.e, st.f, st.g⟩

/-- The SHA-256 compression function: 64 rounds, then add the input state. -/
def shaCompress (st : ShaState) (block : List Nat) : ShaState :=
  let ws := shaSchedule block
  let r := (List.range 64).foldl (fun s t => shaRound s (shaK.getD t 0) (ws.getD t 0)) st
  ⟨(st.a + r.a) % w32, (st.b + r.b) % w32, (st.c + r.c) % w32, (st.d + r.d) % w32,
   (st.e + r.e) % w32, (st.f + r.f) % w32, (st.g + r.g) % w32, (st.h + r.h) % w32⟩

/-- Big-endian bytes of a 32-bit word. -/
def wordBytes (x : Nat) : List Nat := [x >>> 24 % 256, x >>> 16 % 256, x >>> 8 % 256, x % 256]

/-- The digest bytes of a final hash state. -/
def shaDigest (st : ShaState) : List Nat :=
  wordBytes st.a ++ wordBytes st.b ++ wordBytes st.c ++ wordBytes st.d ++
  wordBytes st.e ++ wordBytes st.f ++ wordBytes st.g ++ wordBytes st.h

/-- `hashlib.sha256(bs).digest()`: the 32 digest bytes of a byte list. -/
def sha256 (bs : List Nat) : List Nat :=
  shaDigest ((toBlocks (shaPad bs)).foldl shaCompress shaInit)

/-! ## Python string/byte conversions and `urllib.parse` encoding -/

/-- `s.encode('ascii')`: the code points as bytes, erroring (Python raises
`UnicodeEncodeError`, a `ValueError`) on any code point above 127. -/
def encodeAscii (s : String) : Except String (List Nat) :=
  if s.data.all (fun c => c.toNat ≤ 127) then Except.ok (s.data.map Char.toNat)
  else Except.error "UnicodeEncodeError"

/-- UTF-8 bytes of one code point. -/
def utf8Bytes (c : Char) : List Nat :=
  let n := c.toNat
  if n < 128 then [n]
  else if n < 2048 then [192 ||| n >>> 6, 128 ||| n % 64]
  else if n < 65536 then [224 ||| n >>> 12, 128 ||| (n >>> 6) % 64, 128 ||| n % 64]
  else [240 ||| n >>> 18, 128 ||| (n >>> 12) % 64, 128 ||| (n >>> 6) % 64, 128 ||| n % 64]

/-- `s.encode('utf-8')`, as `urllib.parse.quote` applies it. -/
def strUtf8 (s : String) : List Nat := (s.data.map utf8Bytes).foldr (· ++ ·) []

/-- The characters `urllib.parse.quote` never escapes:
letters, digits, `_ . - ~`. -/
def safeByte (b : Nat) : Bool :=
  (48 ≤ b && b ≤ 57) || (65 ≤ b && b ≤ 90) || (97 ≤ b && b ≤ 122) ||
  b == 95 || b == 46 || b == 45 || b == 126

/-- Uppercase hex digits, for percent escapes. -/
def hexUpper : List Char := "0123456789ABCDEF".toList

/-- How `urllib.parse.quote_plus` renders one UTF-8 byte: space to `+`,
safe bytes verbatim, everything else `%XX`. -/
def quoteByte (b : Nat) : List Char :=
  if b == 32 then ['+']
  else if safeByte b then [Char.ofNat b]
  else ['%', hexUpper.getD (b / 16 % 16) '0', hexUpper.getD (b % 16) '0']

/-- `urllib.parse.quote_plus(s)`. -/
def quote_plus (s : String) : String :=
  String.mk ((strUtf8 s).foldr (fun b acc => quoteByte b ++ acc) [])

/-- `urllib.parse.urlencode` on an insertion-ordered mapping: each pair
rendered `quote_plus(k)=quote_plus(v)`, pairs joined with `&`. -/
def urlencode (data : List (String × String)) : String :=
  String.intercalate "&" (data.map (fun kv => quote_plus kv.1 ++ "=" ++ quote_plus kv.2))

/-! ## The `PKCE` class methods and the module-level `pkce` entry point -/

/-- `os.urandom(n)`: the drawn bytes are supplied as `rnd` (theorems carry
`rnd.length = n` where it matters); a negative `n` raises `ValueError`. -/
def urandom (n : Int) (rnd : List Nat) : Except String (List Nat) :=
  if n < 0 then Except.error "negative argument not allowed" else Except.ok rnd

/-- `PKCE._code_v(length)`: reject lengths outside `[32, 128]`, otherwise
URL-safe-base64-encode `length` random bytes and strip the `=` padding. -/
def _code_v (length : Int) (rnd : List Nat) : Except String String := do
  if ¬ (32 ≤ length ∧ length ≤ 128) then
    throw "Code verifier length must be between 43 and 128 characters."
  let bytes ← urandom length rnd
  pure (b64NoPad bytes)

/-- `PKCE._code_c(code_verifier)`: derive the code challenge for the
configured `code_challenge_method`. -/
def _code_c (code_challenge_method : String) (code_verifier : String) :
    Except String String :=
  if code_challenge_method = "S256" then do
    let bytes ← encodeAscii code_verifier
    pure (b64NoPad (sha256 bytes))
  else if code_challenge_method = "plain" then
    pure code_verifier
  else
    throw "Unsupported code_challenge_method. Choose either 'S256' or 'plain'."

/-- `PKCE._s(length)`: a random state string, URL-safe base64 without
padding; no length validation of its own. -/
def _s (length : Int) (rnd : List Nat) : Except String String := do
  let bytes ← urandom length rnd
  pure (b64NoPad bytes)

/-- `PKCE._n(length)`: a random nonce string, same algorithm as `_s`. -/
def _n (length : Int) (rnd : List Nat) : Except String String := do
  let bytes ← urandom length rnd
  pure (b64NoPad bytes)

/-- `PKCE._gen_p`: generate verifier, challenge, state and nonce, then
urlencode the ordered field mapping; returns `(payload, code_verifier)`. -/
def _gen_p (client_id redirect_uri scope code_challenge_method : String)
    (code_verifier_length state_length nonce_length : Int)
    (verifierRnd stateRnd nonceRnd : List Nat) :
    Except String (String × String) := do
  let code_verifier ← _code_v code_verifier_length verifierRnd
  let code_challenge ← _code_c code_challenge_method code_verifier
  let state ← _s state_length stateRnd
  let nonce ← _n nonce_length nonceRnd
  pure (urlencode [("client_id", client_id), ("scope", scope),
    ("redirect_uri", redirect_uri), ("code_challenge", code_challenge),
    ("code_challenge_method", code_challenge_method), ("state", state),
    ("nonce", nonce)], code_verifier)

/-- The module-level `pkce(...)` entry point: builds a `PKCE` instance from
the OAuth2 parameters and calls `_gen_p` with the three lengths. -/
def pkce (client_id redirect_uri scope : String)
    (code_challenge_method : String := "S256")
    (code_verifier_length : Int := 32) (state_length : Int := 16)
    (nonce_length : Int := 16)
    (verifierRnd stateRnd nonceRnd : List Nat) :
    Except String (String × String) :=
  _gen_p client_id redirect_uri scope code_challenge_method
    code_verifier_length state_length nonce_length verifierRnd stateRnd nonceRnd

/-- `true` exactly when the call returned normally rather than raising. -/
def exceptOk {ε α : Type} : Except ε α → Bool
  | Except.ok _ => true
  | Except.error _ => false

/-! ## Structure of the stripped base64 encoding -/

/-- Every character the encoder emits through `b64Char` belongs to the
URL-safe alphabet. -/
lemma b64Char_mem (n : Nat) : b64Char n ∈ b64Alphabet := by
  have hall : ∀ m < 64, b64Alphabet.getD m 'A' ∈ b64Alphabet := by decide
  exact hall (n % 64) (Nat.mod_lt _ (by norm_num))

/-- The URL-safe alphabet contains no `=`. -/
lemma b64Char_ne_pad (n : Nat) : b64Char n ≠ '=' := by
  have hall : ∀ m < 64, b64Alphabet.getD m 'A' ≠ '=' := by decide
  exact hall (n % 64) (Nat.mod_lt _ (by norm_num))

/-- Shape of the raw base64 output: a body of alphabet characters of length
`⌈4·n/3⌉` followed by zero, one or two `=` padding characters. -/
lemma b64_structure (bs : List Nat) :
    ∃ body pad, b64EncodeGroups bs = body ++ pad ∧
      (∀ c ∈ body, c ∈ b64Alphabet) ∧
      (pad = [] ∨ pad = ['='] ∨ pad = ['=', '=']) ∧
      body.length = (4 * bs.length + 2) / 3 := by
  induction bs using b64EncodeGroups.induct with
  | case1 =>
      exact ⟨[], [], rfl, by simp, Or.inl rfl, rfl⟩
  | case2 b0 =>
      refine ⟨[b64Char (b0 / 4), b64Char (b0 % 4 * 16)], ['=', '='], rfl, ?_,
        Or.inr (Or.inr rfl), by simp⟩
      intro c hc
      simp only [List.mem_cons, List.not_mem_nil, or_false] at hc
      rcases hc with h | h
      · exact h ▸ b64Char_mem _
      · exact h ▸ b64Char_mem _
  | case3 b0 b1 =>
      refine ⟨[b64Char (b0 / 4), b64Char (b0 % 4 * 16 + b1 / 16), b64Char (b1 % 16 * 4)],
        ['='], rfl, ?_, Or.inr (Or.inl rfl), by simp⟩
      intro c hc
      simp only [List.mem_cons, List.not_mem_nil, or_false] at hc
      rcases hc with h | h | h
      · exact h ▸ b64Char_mem _
      · exact h ▸ b64Char_mem _
      · exact h ▸ b64Char_mem _
  | case4 b0 b1 b2 rest ih =>
      obtain ⟨body, pad, heq, hmem, hpad, hlen⟩ := ih
      refine ⟨b64Char (b0 / 4) :: b64Char (b0 % 4 * 16 + b1 / 16) ::
        b64Char (b1 % 16 * 4 + b2 / 64) :: b64Char (b2 % 64) :: body, pad, ?_, ?_, hpad, ?_⟩
      · simp [b64EncodeGroups, heq]
      · intro c hc
        simp only [List.mem_cons] at hc
        rcases hc with h | h | h | h | h
        · exact h ▸ b64Char_mem _
        · exact h ▸ b64Char_mem _
        · exact h ▸ b64Char_mem _
        · exact h ▸ b64Char_mem _
        · exact hmem c h
      · simp only [List.length_cons, hlen, List.length_cons]
        omega

/-- Stripping trailing `=` from an alphabet body followed by padding
returns exactly the body. -/
lemma rstripEq_body_pad (body pad : List Char)
    (hbody : ∀ c ∈ body, c ≠ '=')
    (hpad : pad = [] ∨ pad = ['='] ∨ pad = ['=', '=']) :
    rstripEq (body ++ pad) = body := by
  have hdrop : body.reverse.dropWhile (· == '=') = body.reverse := by
    cases hrev : body.reverse with
    | nil => rfl
    | cons c t =>
        have hc : c ∈ body := by
          have : c ∈ body.reverse := by rw [hrev]; exact List.mem_cons_self _ _
          simpa using this
        have : (c == '=') = false := by
          simp [hbody c hc]
        simp [List.dropWhile, this]
  rcases hpad with h | h | h <;>
    simp [rstripEq, h, List.reverse_append, List.dropWhile, hdrop]

/-- The stripped URL-safe encoding of `n` bytes: all characters are in the
alphabet (in particular no `=`) and its length is `⌈4·n/3⌉`. -/
lemma b64NoPad_spec (bs : List Nat) :
    (∀ c ∈ (b64NoPad bs).data, c ∈ b64Alphabet) ∧
      (b64NoPad bs).length = (4 * bs.length + 2) / 3 := by
  obtain ⟨body, pad, heq, hmem, hpad, hlen⟩ := b64_structure bs
  have hne : ∀ c ∈ body, c ≠ '=' := by
    intro c hc he
    have := hmem c hc
    rw [he] at this
    revert this
    decide
  have hstrip : rstripEq (b64EncodeGroups bs) = body := by
    rw [heq]; exact rstripEq_body_pad body pad hne hpad
  constructor
  · intro c hc
    apply hmem
    simpa [b64NoPad, hstrip] using hc
  · simp [b64NoPad, String.length, hstrip, hlen]

/-- No `=` survives in the stripped encoding. -/
lemma b64NoPad_no_pad (bs : List Nat) : '=' ∉ (b64NoPad bs).data := by
  intro hmem
  have := (b64NoPad_spec bs).1 '=' hmem
  revert this
  decide

/-! ## Behaviour of the embedded methods -/

/-- Reduction of `Except` bind on a success. -/
lemma exceptBind_ok {ε α β : Type} (a : α) (f : α → Except ε β) :
    (Except.ok a >>= f) = f a := rfl

/-- Reduction of `Except` bind on a raised error. -/
lemma exceptBind_err {ε α β : Type} (e : ε) (f : α → Except ε β) :
    ((Except.error e : Except ε α) >>= f) = Except.error e := rfl

/-- Reduction of `Except` map on a success. -/
lemma exceptMap_ok {ε α β : Type} (g : α → β) (a : α) :
    (g <$> (Except.ok a : Except ε α)) = Except.ok (g a) := rfl

/-- Reduction of `Except` map on a raised error. -/
lemma exceptMap_err {ε α β : Type} (g : α → β) (e : ε) :
    (g <$> (Except.error e : Except ε α)) = (Except.error e : Except ε β) := rfl

/-- `pure` for `Except` is `Except.ok`. -/
lemma exceptPure {ε α : Type} (a : α) : (pure a : Except ε α) = Except.ok a := rfl

/-- `throw` for `Except` is `Except.error`. -/
lemma exceptThrow {ε α : Type} (e : ε) : (throw e : Except ε α) = Except.error e := rfl

/-- A SHA-256 digest is always 32 bytes. -/
lemma sha256_length (bs : List Nat) : (sha256 bs).length = 32 := by
  simp [sha256, shaDigest, wordBytes]

/-- `_code_v` on an in-bound length returns the stripped encoding of the
drawn bytes. -/
lemma _code_v_ok (len : Int) (rnd : List Nat) (h1 : 32 ≤ len) (h2 : len ≤ 128) :
    _code_v len rnd = Except.ok (b64NoPad rnd) := by
  have hneg : ¬ len < 0 := by omega
  simp [_code_v, urandom, h1, h2, hneg]

/-- `_code_v` on an out-of-bound length raises. -/
lemma _code_v_err (len : Int) (rnd : List Nat) (h : ¬ (32 ≤ len ∧ len ≤ 128)) :
    _code_v len rnd =
      Except.error "Code verifier length must be between 43 and 128 characters." := by
  simp [_code_v, h, exceptThrow, exceptBind_err]

/-- `_s` on a nonnegative length returns the stripped encoding. -/
lemma _s_ok (len : Int) (rnd : List Nat) (h : 0 ≤ len) :
    _s len rnd = Except.ok (b64NoPad rnd) := by
  have hneg : ¬ len < 0 := by omega
  simp [_s, urandom, hneg]

/-- `_s` on a negative length raises (inside `os.urandom`). -/
lemma _s_err (len : Int) (rnd : List Nat) (h : len < 0) :
    _s len rnd = Except.error "negative argument not allowed" := by
  simp [_s, urandom, h]

/-- `_n` on a nonnegative length returns the stripped encoding. -/
lemma _n_ok (len : Int) (rnd : List Nat) (h : 0 ≤ len) :
    _n len rnd = Except.ok (b64NoPad rnd) := by
  have hneg : ¬ len < 0 := by omega
  simp [_n, urandom, hneg]

/-- `_n` on a negative length raises (inside `os.urandom`). -/
lemma _n_err (len : Int) (rnd : List Nat) (h : len < 0) :
    _n len rnd = Except.error "negative argument not allowed" := by
  simp [_n, urandom, h]

/-- The `S256` branch of `_code_c` on an ASCII verifier. -/
lemma _code_c_S256 (v : String) (h : v.data.all (fun c => c.toNat ≤ 127) = true) :
    _code_c "S256" v = Except.ok (b64NoPad (sha256 (v.data.map Char.toNat))) := by
  simp [_code_c, encodeAscii, h]

/-- The `plain` branch of `_code_c`. -/
lemma _code_c_plain (v : String) : _code_c "plain" v = Except.ok v := by
  simp [_code_c, exceptPure]

/-- The rejection branch of `_code_c`. -/
lemma _code_c_unsupported (m v : String) (h1 : m ≠ "S256") (h2 : m ≠ "plain") :
    _code_c m v =
      Except.error "Unsupported code_challenge_method. Choose either 'S256' or 'plain'." := by
  simp [_code_c, h1, h2, exceptThrow]

/-- Eliminating a successful `_gen_p` run: each stage succeeded and the
payload is the urlencoded ordered field mapping. -/
lemma _gen_p_ok_elim (cid ru sc m : String) (cvl sl nl : Int)
    (vr sr nr : List Nat) (p v : String)
    (h : _gen_p cid ru sc m cvl sl nl vr sr nr = Except.ok (p, v)) :
    _code_v cvl vr = Except.ok v ∧
      ∃ ch st no, _code_c m v = Except.ok ch ∧ _s sl sr = Except.ok st ∧
        _n nl nr = Except.ok no ∧
        p = urlencode [("client_id", cid), ("scope", sc), ("redirect_uri", ru),
          ("code_challenge", ch), ("code_challenge_method", m), ("state", st),
          ("nonce", no)] := by
  unfold _gen_p at h
  cases hcv : _code_v cvl vr with
  | error e =>
      rw [hcv] at h
      simp only [exceptBind_err] at h
      exact Except.noConfusion h
  | ok cv =>
      rw [hcv] at h
      simp only [exceptBind_ok] at h
      cases hcc : _code_c m cv with
      | error e =>
          rw [hcc] at h
          simp only [exceptBind_err] at h
          exact Except.noConfusion h
      | ok ch =>
          rw [hcc] at h
          simp only [exceptBind_ok] at h
          cases hs : _s sl sr with
          | error e =>
              rw [hs] at h
              simp only [exceptBind_err] at h
              exact Except.noConfusion h
          | ok st =>
              rw [hs] at h
              simp only [exceptBind_ok] at h
              cases hn : _n nl nr with
              | error e =>
                  rw [hn] at h
                  simp only [exceptBind_err, exceptMap_err] at h
                  exact Except.noConfusion h
              | ok no =>
                  rw [hn] at h
                  simp only [exceptBind_ok, exceptMap_ok, exceptPure,
                    Except.ok.injEq, Prod.mk.injEq] at h
                  obtain ⟨hp, hv⟩ := h
                  subst hv
                  exact ⟨rfl, ch, st, no, hcc, rfl, rfl, hp.symm⟩

/-- `exceptOk` on a success. -/
lemma exceptOk_ok {ε α : Type} (a : α) : exceptOk (Except.ok a : Except ε α) = true := rfl

/-- `exceptOk` on a raised error. -/
lemma exceptOk_err {ε α : Type} (e : ε) : exceptOk (Except.error e : Except ε α) = false := rfl

/-- A successful `_code_v` always delivers the stripped encoding of the
drawn bytes. -/
lemma _code_v_ok_inv (len : Int) (rnd : List Nat) (s : String)
    (h : _code_v len rnd = Except.ok s) : s = b64NoPad rnd := by
  by_cases hb : 32 ≤ len ∧ len ≤ 128
  · rw [_code_v_ok _ _ hb.1 hb.2] at h
    exact (Except.ok.inj h).symm
  · rw [_code_v_err _ _ hb] at h
    exact Except.noConfusion h

/-- A successful `_s` always delivers the stripped encoding. -/
lemma _s_ok_inv (len : Int) (rnd : List Nat) (s : String)
    (h : _s len rnd = Except.ok s) : s = b64NoPad rnd := by
  by_cases hb : len < 0
  · rw [_s_err _ _ hb] at h
    exact Except.noConfusion h
  · rw [_s_ok _ _ (by omega)] at h
    exact (Except.ok.inj h).symm

/-- A successful `_n` always delivers the stripped encoding. -/
lemma _n_ok_inv (len : Int) (rnd : List Nat) (s : String)
    (h : _n len rnd = Except.ok s) : s = b64NoPad rnd := by
  by_cases hb : len < 0
  · rw [_n_err _ _ hb] at h
    exact Except.noConfusion h
  · rw [_n_ok _ _ (by omega)] at h
    exact (Except.ok.inj h).symm

/-- `_gen_p` with the `plain` method, an in-bound verifier length and
nonnegative state/nonce lengths succeeds, with the fields spelled out. -/
lemma _gen_p_plain_ok (cid ru sc : String) (cvl sl nl : Int)
    (vr sr nr : List Nat) (h1 : 32 ≤ cvl) (h2 : cvl ≤ 128)
    (hs : 0 ≤ sl) (hn : 0 ≤ nl) :
    _gen_p cid ru sc "plain" cvl sl nl vr sr nr =
      Except.ok (urlencode [("client_id", cid), ("scope", sc), ("redirect_uri", ru),
        ("code_challenge", b64NoPad vr), ("code_challenge_method", "plain"),
        ("state", b64NoPad sr), ("nonce", b64NoPad nr)], b64NoPad vr) := by
  unfold _gen_p
  rw [_code_v_ok _ _ h1 h2]
  simp only [exceptBind_ok]
  rw [_code_c_plain]
  simp only [exceptBind_ok]
  rw [_s_ok _ _ hs]
  simp only [exceptBind_ok]
  rw [_n_ok _ _ hn]
  rfl

/-- `_gen_p` fails whenever the verifier length check fails. -/
lemma _gen_p_cv_err (cid ru sc m : String) (cvl sl nl : Int)
    (vr sr nr : List Nat) (h : ¬ (32 ≤ cvl ∧ cvl ≤ 128)) :
    exceptOk (_gen_p cid ru sc m cvl sl nl vr sr nr) = false := by
  unfold _gen_p
  rw [_code_v_err _ _ h]
  simp only [exceptBind_err]
  rfl

/-- `_gen_p` fails whenever the state length is negative. -/
lemma _gen_p_state_neg (cid ru sc m : String) (cvl sl nl : Int)
    (vr sr nr : List Nat) (h : sl < 0) :
    exceptOk (_gen_p cid ru sc m cvl sl nl vr sr nr) = false := by
  unfold _gen_p
  cases _code_v cvl vr with
  | error e => simp only [exceptBind_err]; rfl
  | ok cv =>
      simp only [exceptBind_ok]
      cases _code_c m cv with
      | error e => simp only [exceptBind_err]; rfl
      | ok ch =>
          simp only [exceptBind_ok]
          rw [_s_err _ _ h]
          simp only [exceptBind_err]
          rfl

/-- `_gen_p` fails whenever the nonce length is negative. -/
lemma _gen_p_nonce_neg (cid ru sc m : String) (cvl sl nl : Int)
    (vr sr nr : List Nat) (h : nl < 0) :
    exceptOk (_gen_p cid ru sc m cvl sl nl vr sr nr) = false := by
  unfold _gen_p
  cases _code_v cvl vr with
  | error e => simp only [exceptBind_err]; rfl
  | ok cv =>
      simp only [exceptBind_ok]
      cases _code_c m cv with
      | error e => simp only [exceptBind_err]; rfl
      | ok ch =>
          simp only [exceptBind_ok]
          cases _s sl sr with
          | error e => simp only [exceptBind_err]; rfl
          | ok st =>
              simp only [exceptBind_ok]
              rw [_n_err _ _ h]
              rfl

/-! ## The claims -/

/-- C1: deriving the challenge with method `S256` is deterministic (two
calls on the same verifier agree) and the output is the URL-safe base64
encoding, with trailing `=` padding stripped, of the SHA-256 digest of the
ASCII bytes of the verifier. -/
theorem claim_C1_s256_deterministic_and_spec (v : String)
    (h : v.data.all (fun c => c.toNat ≤ 127) = true) :
    _code_c "S256" v = _code_c "S256" v ∧
      _code_c "S256" v = Except.ok (b64NoPad (sha256 (v.data.map Char.toNat))) :=
  ⟨rfl, _code_c_S256 v h⟩

/-- C1 witness at the concrete verifier `"abc"`. -/
theorem claim_C1_witness :
    ("abc" : String).data.all (fun c => c.toNat ≤ 127) = true ∧
      (_code_c "S256" "abc" = _code_c "S256" "abc" ∧
        _code_c "S256" "abc" =
          Except.ok (b64NoPad (sha256 (("abc" : String).data.map Char.toNat)))) :=
  ⟨by decide, claim_C1_s256_deterministic_and_spec "abc" (by decide)⟩

/-- C2: code-verifier generation raises `ValueError` if and only if the
requested byte length is outside `[32, 128]`; in particular `_gen_p` with
`code_verifier_length` 10 or 200 fails, and every length in `[32, 128]`
is accepted. -/
theorem claim_C2_verifier_length_validation :
    (∀ (len : Int) (rnd : List Nat),
        exceptOk (_code_v len rnd) = true ↔ 32 ≤ len ∧ len ≤ 128) ∧
    (∀ (cid ru sc m : String) (sl nl : Int) (vr sr nr : List Nat),
        exceptOk (_gen_p cid ru sc m 10 sl nl vr sr nr) = false) ∧
    (∀ (cid ru sc m : String) (sl nl : Int) (vr sr nr : List Nat),
        exceptOk (_gen_p cid ru sc m 200 sl nl vr sr nr) = false) := by
  refine ⟨fun len rnd => ?_, fun cid ru sc m sl nl vr sr nr => ?_,
    fun cid ru sc m sl nl vr sr nr => ?_⟩
  · by_cases hb : 32 ≤ len ∧ len ≤ 128
    · rw [_code_v_ok _ _ hb.1 hb.2, exceptOk_ok]
      simpa using hb
    · rw [_code_v_err _ _ hb, exceptOk_err]
      simpa using hb
  · exact _gen_p_cv_err _ _ _ _ _ _ _ _ _ _ (by omega)
  · exact _gen_p_cv_err _ _ _ _ _ _ _ _ _ _ (by omega)

/-- C3: on every successful `_gen_p` call, deriving the challenge from the
returned code verifier with the configured method reproduces exactly the
`code_challenge` embedded in the payload. -/
theorem claim_C3_roundtrip (cid ru sc m : String) (cvl sl nl : Int)
    (vr sr nr : List Nat) (p v : String)
    (h : _gen_p cid ru sc m cvl sl nl vr sr nr = Except.ok (p, v)) :
    ∃ ch st no, _code_c m v = Except.ok ch ∧
      p = urlencode [("client_id", cid), ("scope", sc), ("redirect_uri", ru),
        ("code_challenge", ch), ("code_challenge_method", m), ("state", st),
        ("nonce", no)] := by
  obtain ⟨-, ch, st, no, hcc, -, -, hp⟩ :=
    _gen_p_ok_elim cid ru sc m cvl sl nl vr sr nr p v h
  exact ⟨ch, st, no, hcc, hp⟩

/-- C3 witness at a concrete successful call with the `plain` method. -/
theorem claim_C3_witness :
    ∃ ch st no,
      _code_c "plain" "AAAAAAAAAAAAAAAAAAAAAAAAAAAAAAAAAAAAAAAAAAA" = Except.ok ch ∧
      "client_id=a&scope=s&redirect_uri=r&code_challenge=AAAAAAAAAAAAAAAAAAAAAAAAAAAAAAAAAAAAAAAAAAA&code_challenge_method=plain&state=&nonce=" =
        urlencode [("client_id", "a"), ("scope", "s"), ("redirect_uri", "r"),
          ("code_challenge", ch), ("code_challenge_method", "plain"),
          ("state", st), ("nonce", no)] :=
  claim_C3_roundtrip "a" "r" "s" "plain" 32 0 0 (List.replicate 32 0) [] []
    "client_id=a&scope=s&redirect_uri=r&code_challenge=AAAAAAAAAAAAAAAAAAAAAAAAAAAAAAAAAAAAAAAAAAA&code_challenge_method=plain&state=&nonce="
    "AAAAAAAAAAAAAAAAAAAAAAAAAAAAAAAAAAAAAAAAAAA" (by decide)

/-- C4 (code bug): a requested byte length of 128 passes validation, yet
the encoded verifier is 171 characters long — outside the `[43, 128]`
character bound the module's own documentation promises. -/
theorem claim_C4_encoded_length_violation :
    _code_v 128 (List.replicate 128 0) = Except.ok (b64NoPad (List.replicate 128 0)) ∧
      (b64NoPad (List.replicate 128 0)).length = 171 ∧
      ¬ (b64NoPad (List.replicate 128 0)).length ≤ 128 := by
  refine ⟨_code_v_ok _ _ (by norm_num) (by norm_num), by decide, by decide⟩

/-- C5 counterexample: a zero `state_length` and `nonce_length` (not
positive integers) are accepted — the call succeeds rather than raising. -/
theorem claim_C5_counterexample :
    exceptOk (_gen_p "a" "r" "s" "plain" 32 0 0 (List.replicate 32 0) [] []) = true := by
  decide

/-- C5 amended: `_gen_p` raises `ValueError` when the verifier length is
outside `[32, 128]` and when `state_length` or `nonce_length` is negative
(inside `os.urandom`); a zero `state_length`/`nonce_length` is accepted
and yields empty tokens. -/
theorem claim_C5_amended_validation :
    (∀ (cid ru sc m : String) (cvl sl nl : Int) (vr sr nr : List Nat),
        ¬ (32 ≤ cvl ∧ cvl ≤ 128) →
        exceptOk (_gen_p cid ru sc m cvl sl nl vr sr nr) = false) ∧
    (∀ (cid ru sc m : String) (cvl sl nl : Int) (vr sr nr : List Nat),
        sl < 0 → exceptOk (_gen_p cid ru sc m cvl sl nl vr sr nr) = false) ∧
    (∀ (cid ru sc m : String) (cvl sl nl : Int) (vr sr nr : List Nat),
        nl < 0 → exceptOk (_gen_p cid ru sc m cvl sl nl vr sr nr) = false) ∧
    (∀ (cid ru sc : String) (cvl : Int) (vr : List Nat),
        32 ≤ cvl → cvl ≤ 128 →
        exceptOk (_gen_p cid ru sc "plain" cvl 0 0 vr [] []) = true) := by
  refine ⟨fun cid ru sc m cvl sl nl vr sr nr h => _gen_p_cv_err _ _ _ _ _ _ _ _ _ _ h,
    fun cid ru sc m cvl sl nl vr sr nr h => _gen_p_state_neg _ _ _ _ _ _ _ _ _ _ h,
    fun cid ru sc m cvl sl nl vr sr nr h => _gen_p_nonce_neg _ _ _ _ _ _ _ _ _ _ h,
    fun cid ru sc cvl vr h1 h2 => ?_⟩
  rw [_gen_p_plain_ok cid ru sc cvl 0 0 vr [] [] h1 h2 (by omega) (by omega)]
  rfl

/-- C5 amended, witnessed at concrete inputs for each conjunct. -/
theorem claim_C5_amended_witness :
    exceptOk (_gen_p "a" "r" "s" "plain" 31 0 0 (List.replicate 31 0) [] []) = false ∧
    exceptOk (_gen_p "a" "r" "s" "plain" 32 (-1) 0 (List.replicate 32 0) [] []) = false ∧
    exceptOk (_gen_p "a" "r" "s" "plain" 32 0 (-1) (List.replicate 32 0) [] []) = false ∧
    exceptOk (_gen_p "a" "r" "s" "plain" 32 0 0 (List.replicate 32 0) [] []) = true :=
  ⟨claim_C5_amended_validation.1 "a" "r" "s" "plain" 31 0 0 _ _ _ (by omega),
   claim_C5_amended_validation.2.1 "a" "r" "s" "plain" 32 (-1) 0 _ _ _ (by omega),
   claim_C5_amended_validation.2.2.1 "a" "r" "s" "plain" 32 0 (-1) _ _ _ (by omega),
   claim_C5_amended_validation.2.2.2 "a" "r" "s" 32 _ (by omega) (by omega)⟩

/-- C6: for every verifier and every method that is neither `S256` nor
`plain`, challenge derivation raises `ValueError` with the unsupported
method message and returns no value. -/
theorem claim_C6_unsupported_method (m v : String)
    (h1 : m ≠ "S256") (h2 : m ≠ "plain") :
    _code_c m v =
      Except.error "Unsupported code_challenge_method. Choose either 'S256' or 'plain'." :=
  _code_c_unsupported m v h1 h2

/-- C6 witness at the concrete method `"HS256"`. -/
theorem claim_C6_witness :
    ("HS256" : String) ≠ "S256" ∧ ("HS256" : String) ≠ "plain" ∧
      _code_c "HS256" "x" =
        Except.error "Unsupported code_challenge_method. Choose either 'S256' or 'plain'." :=
  ⟨by decide, by decide, claim_C6_unsupported_method "HS256" "x" (by decide) (by decide)⟩

/-- C7: deriving the challenge with method `plain` returns the verifier
unchanged, for every verifier. -/
theorem claim_C7_plain_identity (v : String) : _code_c "plain" v = Except.ok v :=
  _code_c_plain v

/-- C8: every secret the generator returns — code verifier, state, nonce —
consists only of URL-safe base64 alphabet characters and contains no `=`. -/
theorem claim_C8_urlsafe_alphabet :
    (∀ (len : Int) (rnd : List Nat) (s : String), _code_v len rnd = Except.ok s →
        (∀ c ∈ s.data, c ∈ b64Alphabet) ∧ '=' ∉ s.data) ∧
    (∀ (len : Int) (rnd : List Nat) (s : String), _s len rnd = Except.ok s →
        (∀ c ∈ s.data, c ∈ b64Alphabet) ∧ '=' ∉ s.data) ∧
    (∀ (len : Int) (rnd : List Nat) (s : String), _n len rnd = Except.ok s →
        (∀ c ∈ s.data, c ∈ b64Alphabet) ∧ '=' ∉ s.data) := by
  refine ⟨fun len rnd s h => ?_, fun len rnd s h => ?_, fun len rnd s h => ?_⟩
  · rw [_code_v_ok_inv len rnd s h]
    exact ⟨(b64NoPad_spec rnd).1, b64NoPad_no_pad rnd⟩
  · rw [_s_ok_inv len rnd s h]
    exact ⟨(b64NoPad_spec rnd).1, b64NoPad_no_pad rnd⟩
  · rw [_n_ok_inv len rnd s h]
    exact ⟨(b64NoPad_spec rnd).1, b64NoPad_no_pad rnd⟩

/-- C8 witness: each generator applied to concrete in-range inputs. -/
theorem claim_C8_witness :
    _code_v 32 (List.replicate 32 0) =
        Except.ok "AAAAAAAAAAAAAAAAAAAAAAAAAAAAAAAAAAAAAAAAAAA" ∧
    ((∀ c ∈ ("AAAAAAAAAAAAAAAAAAAAAAAAAAAAAAAAAAAAAAAAAAA" : String).data,
        c ∈ b64Alphabet) ∧
      '=' ∉ ("AAAAAAAAAAAAAAAAAAAAAAAAAAAAAAAAAAAAAAAAAAA" : String).data) ∧
    _s 16 (List.replicate 16 0) = Except.ok "AAAAAAAAAAAAAAAAAAAAAA" ∧
    ((∀ c ∈ ("AAAAAAAAAAAAAAAAAAAAAA" : String).data, c ∈ b64Alphabet) ∧
      '=' ∉ ("AAAAAAAAAAAAAAAAAAAAAA" : String).data) ∧
    _n 16 (List.replicate 16 0) = Except.ok "AAAAAAAAAAAAAAAAAAAAAA" ∧
    ((∀ c ∈ ("AAAAAAAAAAAAAAAAAAAAAA" : String).data, c ∈ b64Alphabet) ∧
      '=' ∉ ("AAAAAAAAAAAAAAAAAAAAAA" : String).data) :=
  ⟨by decide, claim_C8_urlsafe_alphabet.1 32 (List.replicate 32 0) _ (by decide),
   by decide, claim_C8_urlsafe_alphabet.2.1 16 (List.replicate 16 0) _ (by decide),
   by decide, claim_C8_urlsafe_alphabet.2.2 16 (List.replicate 16 0) _ (by decide)⟩

/-- C9: every successful payload is the `application/x-www-form-urlencoded`
serialization of the ordered field mapping `client_id, scope, redirect_uri,
code_challenge, code_challenge_method, state, nonce`, with values rendered
by `quote_plus` (space to `+`, reserved characters percent-escaped). -/
theorem claim_C9_payload_serialization :
    (∀ (cid ru sc m : String) (cvl sl nl : Int) (vr sr nr : List Nat)
        (p v : String), _gen_p cid ru sc m cvl sl nl vr sr nr = Except.ok (p, v) →
        ∃ ch st no,
          p = urlencode [("client_id", cid), ("scope", sc), ("redirect_uri", ru),
            ("code_challenge", ch), ("code_challenge_method", m), ("state", st),
            ("nonce", no)]) ∧
    quote_plus "openid profile" = "openid+profile" ∧
    quote_plus "https://example.com/cb" = "https%3A%2F%2Fexample.com%2Fcb" := by
  refine ⟨fun cid ru sc m cvl sl nl vr sr nr p v h => ?_, by decide, by decide⟩
  obtain ⟨-, ch, st, no, -, -, -, hp⟩ :=
    _gen_p_ok_elim cid ru sc m cvl sl nl vr sr nr p v h
  exact ⟨ch, st, no, hp⟩

/-- C9 witness at a concrete successful call. -/
theorem claim_C9_witness :
    ∃ ch st no,
      "client_id=b&scope=c&redirect_uri=u&code_challenge=AAAAAAAAAAAAAAAAAAAAAAAAAAAAAAAAAAAAAAAAAAA&code_challenge_method=plain&state=AAAAAAAAAAAAAAAAAAAAAA&nonce=AAAAAAAAAAAAAAAAAAAAAA" =
        urlencode [("client_id", "b"), ("scope", "c"), ("redirect_uri", "u"),
          ("code_challenge", ch), ("code_challenge_method", "plain"),
          ("state", st), ("nonce", no)] :=
  claim_C9_payload_serialization.1 "b" "u" "c" "plain" 32 16 16
    (List.replicate 32 0) (List.replicate 16 0) (List.replicate 16 0)
    "client_id=b&scope=c&redirect_uri=u&code_challenge=AAAAAAAAAAAAAAAAAAAAAAAAAAAAAAAAAAAAAAAAAAA&code_challenge_method=plain&state=AAAAAAAAAAAAAAAAAAAAAA&nonce=AAAAAAAAAAAAAAAAAAAAAA"
    "AAAAAAAAAAAAAAAAAAAAAAAAAAAAAAAAAAAAAAAAAAA" (by decide)

/-- C10: the `S256` challenge is exactly 43 characters long for every
verifier — the SHA-256 digest is 32 bytes, which encode to 43 unpadded
URL-safe base64 characters. -/
theorem claim_C10_challenge_length (v : String)
    (h : v.data.all (fun c => c.toNat ≤ 127) = true) :
    ∃ c, _code_c "S256" v = Except.ok c ∧ c.length = 43 := by
  refine ⟨_, _code_c_S256 v h, ?_⟩
  rw [(b64NoPad_spec (sha256 (v.data.map Char.toNat))).2, sha256_length]

/-- C10 witness at the empty verifier. -/
theorem claim_C10_witness :
    ("" : String).data.all (fun c => c.toNat ≤ 127) = true ∧
      ∃ c, _code_c "S256" "" = Except.ok c ∧ c.length = 43 :=
  ⟨by decide, claim_C10_challenge_length "" (by decide)⟩

end Pkcegen
